import Mathlib

/-!
Shallow embedding of the resilience core of the HTCCTV repository, and proofs
of the spec's testable properties against it.

Part 1: the FieldBusPoller (`src/core/modbus_handler.py`, class
`ModbusReaderThread`).  The poller's loop (`run`, lines 140-195) is embedded
as a step function on an explicit state; the serial environment (connect
results, bulk-read results) is an explicit event input.  Python dicts are
embedded as insertion-ordered association lists so that statements about a
snapshot's key set are meaningful.
-/

namespace HTCCTV

/-- A published register point value: either a numeric reading or the `"--"`
unavailable sentinel (modbus_handler.py uses the string `"--"`). -/
inductive RVal where
  | num (v : ℕ)
  | unavail
  deriving DecidableEq, Repr

/-- A published snapshot: the Python dict `{index: value}`, embedded as an
insertion-ordered association list. -/
abbrev Snapshot := List (ℕ × RVal)

/-- Python dict assignment `d[k] = v`: overwrite in place when the key exists,
otherwise append at the end (Python dicts keep insertion order). -/
def dictSet (d : Snapshot) (k : ℕ) (v : RVal) : Snapshot :=
  if d.any (fun p => p.1 == k) then
    d.map (fun p => if p.1 = k then (k, v) else p)
  else d ++ [(k, v)]

/-- The dict comprehension `{i + 1: "--" for i in range(count)}` used both for
the initial `_last_good` cache (line 71) and by `_emit_offline` (line 135). -/
def offlineSnap (count : ℕ) : Snapshot :=
  (List.range count).map (fun i => (i + 1, RVal.unavail))

/-- The resilience-relevant configuration stored by `ModbusReaderThread.__init__`
(lines 55-67).  Serial parameters (port, baud rate, parity, ...) and the poll
interval do not influence the embedded control flow and are omitted. -/
structure MConfig where
  count : ℕ
  failThreshold : ℤ
  backoffStart : ℚ
  backoffMax : ℚ
  deriving Repr

/-- The clamping performed by `ModbusReaderThread.__init__` (lines 65-67):
`fail_threshold = max(1, int(fail_threshold))`,
`reconnect_backoff_start_s = max(0.5, reconnect_backoff_start_s)`,
`reconnect_backoff_max_s = max(start, reconnect_backoff_max_s)`.
Python floats are embedded as rationals; all operations used on them
(max, min, doubling) are exact. -/
def mkMConfig (count : ℕ) (fail_threshold : ℤ)
    (reconnect_backoff_start_s reconnect_backoff_max_s : ℚ) : MConfig :=
  { count := count
    failThreshold := max 1 fail_threshold
    backoffStart := max (1/2) reconnect_backoff_start_s
    backoffMax := max (max (1/2) reconnect_backoff_start_s) reconnect_backoff_max_s }

/-- Mutable state of the poller thread: `_inst is not None`, `_last_good`,
`_fail_count`, `_current_backoff_s` (lines 69-75). -/
structure MState where
  hasInst : Bool
  lastGood : Snapshot
  failCount : ℕ
  currentBackoff : ℚ
  deriving Repr

/-- State right after `__init__` (lines 69-75): no handle, all-unavailable
cache, zero failures, backoff at its start value. -/
def initMState (c : MConfig) : MState :=
  { hasInst := false
    lastGood := offlineSnap c.count
    failCount := 0
    currentBackoff := c.backoffStart }

/-- The spec's `ConnectionState`; `Connected` means `_inst is not None`. -/
inductive ConnectionState where
  | Disconnected
  | Connected
  deriving DecidableEq, Repr

/-- Connection state of the poller: determined by whether the instrument
handle exists. -/
def connState (s : MState) : ConnectionState :=
  if s.hasInst = true then .Connected else .Disconnected

/-- Outcome of one `read_registers` call (line 161): a successful bulk read
returning a list of register values, a soft failure (generic `Exception`:
timeout, CRC, line 182), or a hard failure (`SerialException`, line 172). -/
inductive ReadResult where
  | ok (regs : List ℕ)
  | soft
  | hard
  deriving DecidableEq, Repr

/-- Environment input for one iteration of the `run` loop (lines 144-195):
when disconnected, `_connect` either fails (`connFail`) or succeeds and the
same iteration falls through to a bulk read (`connOk r`); when connected,
the iteration performs a bulk read (`read r`). -/
inductive PollEvent where
  | connFail
  | connOk (r : ReadResult)
  | read (r : ReadResult)
  deriving DecidableEq, Repr

/-- `_emit_offline` (lines 133-137): build the all-`"--"` dict, reset the
last-good cache to a copy of it, and emit it. -/
def emitOffline (c : MConfig) (s : MState) : MState × Snapshot :=
  ({ s with lastGood := offlineSnap c.count }, offlineSnap c.count)

/-- The update loop `for i, v in enumerate(regs, start=1): self._last_good[i] = v`
(lines 165-166), with `i` starting at the given index. -/
def applyRegsAux (d : Snapshot) (i : ℕ) : List ℕ → Snapshot
  | [] => d
  | r :: rs => applyRegsAux (dictSet d i (RVal.num r)) (i + 1) rs

/-- Overwrite indices `1 .. regs.length` of the last-good cache with the newly
read values (lines 165-166). -/
def applyRegs (d : Snapshot) (regs : List ℕ) : Snapshot :=
  applyRegsAux d 1 regs

/-- The `try`/`except` body of the connected portion of one loop iteration
(lines 160-195), returning the next state and the snapshots emitted:
success clears the failure counter, overwrites the cache in order and emits a
copy; `SerialException` closes the handle (`_close_instrument`), emits offline
and doubles the backoff; a soft failure increments the counter and emits
either offline (counter at/above threshold, cache also reset) or the frozen
last-good copy. -/
def doRead (c : MConfig) (s : MState) : ReadResult → MState × List Snapshot
  | .ok regs =>
      let lg := applyRegs s.lastGood regs
      ({ s with failCount := 0, lastGood := lg }, [lg])
  | .hard =>
      let s1 : MState := { s with hasInst := false }
      let p := emitOffline c s1
      ({ p.1 with currentBackoff := min (p.1.currentBackoff * 2) c.backoffMax }, [p.2])
  | .soft =>
      let s1 : MState := { s with failCount := s.failCount + 1 }
      if (s1.failCount : ℤ) ≥ c.failThreshold then
        let p := emitOffline c s1
        (p.1, [p.2])
      else
        (s1, [s1.lastGood])

/-- One iteration of the `while self._running` loop (lines 144-195).
Disconnected + failed `_connect`: emit one offline snapshot, sleep the current
backoff and double it capped at the max (lines 151-157).  Disconnected +
successful `_connect`: reset the failure counter and the backoff (lines
147-150), then fall through to the bulk read.  Connected: bulk read.
Events that do not match the connection state leave the state unchanged. -/
def step (c : MConfig) (s : MState) : PollEvent → MState × List Snapshot
  | .connFail =>
      if s.hasInst = true then (s, [])
      else
        let p := emitOffline c s
        ({ p.1 with currentBackoff := min (p.1.currentBackoff * 2) c.backoffMax }, [p.2])
  | .connOk r =>
      if s.hasInst = true then (s, [])
      else doRead c { s with hasInst := true, failCount := 0, currentBackoff := c.backoffStart } r
  | .read r =>
      if s.hasInst = true then doRead c s r else (s, [])

/-- Run the poller loop over a list of environment events, collecting every
emitted snapshot in order. -/
def run (c : MConfig) : MState → List PollEvent → MState × List Snapshot
  | s, [] => (s, [])
  | s, e :: es =>
      let p := step c s e
      let q := run c p.1 es
      (q.1, p.2 ++ q.2)

/-- Well-formedness of an event: `minimalmodbus.Instrument.read_registers(base, count)`
returns exactly `count` values when it does not raise, so a successful bulk
read carries `count` registers. -/
def eventWF (c : MConfig) : PollEvent → Bool
  | .connOk (.ok regs) => regs.length == c.count
  | .read (.ok regs) => regs.length == c.count
  | _ => true

/-- Key-set correctness of a snapshot: its keys are exactly `1..count`, in
order. -/
def goodKeys (count : ℕ) (d : Snapshot) : Prop :=
  d.map Prod.fst = (List.range count).map (· + 1)

/-! Key-set lemmas for snapshots. -/

theorem keys_offlineSnap (n : ℕ) : goodKeys n (offlineSnap n) := by
  simp [goodKeys, offlineSnap, List.map_map, Function.comp]

theorem keys_dictSet_of_mem (d : Snapshot) (k : ℕ) (v : RVal)
    (h : k ∈ d.map Prod.fst) :
    (dictSet d k v).map Prod.fst = d.map Prod.fst := by
  have hany : d.any (fun p => p.1 == k) = true := by
    rcases List.mem_map.1 h with ⟨p, hp, hpk⟩
    exact List.any_eq_true.2 ⟨p, hp, by simp [hpk]⟩
  simp only [dictSet, hany, if_true, List.map_map]
  refine List.map_congr_left ?_
  intro p _
  by_cases hpk : p.1 = k
  · simp [Function.comp, hpk]
  · simp [Function.comp, hpk]

theorem keys_applyRegsAux (regs : List ℕ) :
    ∀ (d : Snapshot) (i : ℕ),
      (∀ j, i ≤ j → j < i + regs.length → j ∈ d.map Prod.fst) →
      (applyRegsAux d i regs).map Prod.fst = d.map Prod.fst := by
  induction regs with
  | nil => intro d i _; rfl
  | cons r rs ih =>
      intro d i h
      have hi : i ∈ d.map Prod.fst := h i le_rfl (by simp)
      have hkeys := keys_dictSet_of_mem d i (RVal.num r) hi
      calc (applyRegsAux (dictSet d i (RVal.num r)) (i + 1) rs).map Prod.fst
          = (dictSet d i (RVal.num r)).map Prod.fst := by
            apply ih
            intro j h1 h2
            rw [hkeys]
            exact h j (by omega) (by simpa [List.length_cons] using by omega)
        _ = d.map Prod.fst := hkeys

theorem goodKeys_mem {n : ℕ} {d : Snapshot} (hd : goodKeys n d) {j : ℕ}
    (h1 : 1 ≤ j) (h2 : j ≤ n) : j ∈ d.map Prod.fst := by
  rw [hd]
  exact List.mem_map.2 ⟨j - 1, List.mem_range.2 (by omega), by omega⟩

theorem goodKeys_applyRegs {n : ℕ} {d : Snapshot} (hd : goodKeys n d)
    {regs : List ℕ} (hlen : regs.length = n) : goodKeys n (applyRegs d regs) := by
  unfold goodKeys applyRegs
  rw [keys_applyRegsAux regs d 1 ?_]
  · exact hd
  · intro j h1 h2
    exact goodKeys_mem hd h1 (by omega)

/-- The soft-failure branch of `doRead`, written out with the threshold test
explicit (definitional unfolding). -/
theorem doRead_soft_eq (c : MConfig) (s : MState) :
    doRead c s .soft =
      if ((s.failCount + 1 : ℕ) : ℤ) ≥ c.failThreshold then
        ({ s with failCount := s.failCount + 1, lastGood := offlineSnap c.count },
          [offlineSnap c.count])
      else
        ({ s with failCount := s.failCount + 1 }, [s.lastGood]) := rfl

/-- Every snapshot emitted by one bulk-read step has the full key set, and the
last-good cache keeps the full key set, provided the cache had it before and
a successful read returns `count` registers. -/
theorem doRead_goodKeys (c : MConfig) (s : MState) (r : ReadResult)
    (hs : goodKeys c.count s.lastGood)
    (hlen : ∀ regs, r = .ok regs → regs.length = c.count) :
    goodKeys c.count (doRead c s r).1.lastGood ∧
      ∀ snap ∈ (doRead c s r).2, goodKeys c.count snap := by
  cases r with
  | ok regs =>
      have hgood := goodKeys_applyRegs (n := c.count) (d := s.lastGood) hs (hlen regs rfl)
      exact ⟨hgood, by
        intro snap hsnap
        have : snap = applyRegs s.lastGood regs := by simpa [doRead] using hsnap
        rw [this]; exact hgood⟩
  | hard =>
      refine ⟨keys_offlineSnap c.count, ?_⟩
      intro snap hsnap
      have : snap = offlineSnap c.count := by simpa [doRead, emitOffline] using hsnap
      rw [this]; exact keys_offlineSnap c.count
  | soft =>
      rw [doRead_soft_eq]
      by_cases hc : ((s.failCount + 1 : ℕ) : ℤ) ≥ c.failThreshold
      · rw [if_pos hc]
        exact ⟨keys_offlineSnap c.count, by
          intro snap hsnap
          have : snap = offlineSnap c.count := by simpa using hsnap
          rw [this]; exact keys_offlineSnap c.count⟩
      · rw [if_neg hc]
        exact ⟨hs, by
          intro snap hsnap
          have : snap = s.lastGood := by simpa using hsnap
          rw [this]; exact hs⟩

/-- Every snapshot emitted by one loop iteration has the full key set, and the
last-good cache keeps the full key set, provided the cache had it before and
the event is well-formed. -/
theorem step_goodKeys (c : MConfig) (s : MState) (e : PollEvent)
    (hs : goodKeys c.count s.lastGood) (he : eventWF c e = true) :
    goodKeys c.count (step c s e).1.lastGood ∧
      ∀ snap ∈ (step c s e).2, goodKeys c.count snap := by
  cases e with
  | connFail =>
      by_cases h : s.hasInst = true <;>
        simp [step, emitOffline, h, hs, keys_offlineSnap c.count]
  | connOk r =>
      by_cases h : s.hasInst = true
      · simp [step, h, hs]
      · have hlen : ∀ regs, r = .ok regs → regs.length = c.count := by
          intro regs hr; subst hr; simpa [eventWF] using he
        have hmain := doRead_goodKeys c
          { s with hasInst := true, failCount := 0, currentBackoff := c.backoffStart } r hs hlen
        simpa [step, h] using hmain
  | read r =>
      by_cases h : s.hasInst = true
      · have hlen : ∀ regs, r = .ok regs → regs.length = c.count := by
          intro regs hr; subst hr; simpa [eventWF] using he
        have hmain := doRead_goodKeys c s r hs hlen
        simpa [step, h] using hmain
      · simp [step, h, hs]

/-- Unfolded form of one failed-reconnect iteration (lines 151-157). -/
theorem step_connFail_eq (c : MConfig) (s : MState) (h : s.hasInst = false) :
    step c s .connFail =
      ({ s with
          lastGood := offlineSnap c.count,
          currentBackoff := min (s.currentBackoff * 2) c.backoffMax },
        [offlineSnap c.count]) := by
  simp [step, h, emitOffline]

/-- When connected, one loop iteration is exactly the bulk-read body. -/
theorem step_read_eq (c : MConfig) (s : MState) (r : ReadResult) (h : s.hasInst = true) :
    step c s (.read r) = doRead c s r := by
  simp [step, h]

/-- Running the loop over a list of well-formed events keeps the full key set
of the cache and of every emitted snapshot. -/
theorem run_goodKeys (c : MConfig) (es : List PollEvent) :
    ∀ s : MState, goodKeys c.count s.lastGood → (∀ e ∈ es, eventWF c e = true) →
      goodKeys c.count (run c s es).1.lastGood ∧
        ∀ snap ∈ (run c s es).2, goodKeys c.count snap := by
  induction es with
  | nil => intro s hs _; exact ⟨hs, by simp [run]⟩
  | cons e es ih =>
      intro s hs hwf
      have hstep := step_goodKeys c s e hs (hwf e (by simp))
      have hrest := ih (step c s e).1 hstep.1 (fun e' he' => hwf e' (by simp [he']))
      refine ⟨hrest.1, ?_⟩
      intro snap hsnap
      simp only [run, List.mem_append] at hsnap
      rcases hsnap with hsnap | hsnap
      · exact hstep.2 snap hsnap
      · exact hrest.2 snap hsnap

/-- Claim C2: every snapshot published by the poller — on a successful read,
on a transient failure below the threshold, on crossing the threshold, on a
structural failure, and on each failed reconnect attempt — has exactly `count`
entries whose keys are exactly the contiguous indices `1..count` (each value
being, by the type of `RVal`, a numeric value or the unavailable sentinel);
no snapshot is ever partial or has absent or extra keys. -/
theorem C2_snapshots_always_full (c : MConfig) (es : List PollEvent)
    (hwf : ∀ e ∈ es, eventWF c e = true) :
    ∀ snap ∈ (run c (initMState c) es).2, goodKeys c.count snap :=
  (run_goodKeys c es (initMState c) (keys_offlineSnap c.count) hwf).2

/-- Witness for C2: on a concrete trace exercising a failed reconnect, a
reconnect success with read, a soft failure and a hard failure, the snapshot
emitted by the failed reconnect (the first one published) has the full key
set. -/
theorem C2_snapshots_always_full_witness :
    goodKeys (mkMConfig 3 5 2 15).count (offlineSnap (mkMConfig 3 5 2 15).count) :=
  C2_snapshots_always_full (mkMConfig 3 5 2 15)
    [.connFail, .connOk (.ok [7, 8, 9]), .read .soft, .read .hard] (by decide)
    (offlineSnap (mkMConfig 3 5 2 15).count) (by decide)

/-- Claim C1: in the Connected state, while the consecutive-failure counter
stays strictly below the threshold each soft failure republishes the unchanged
last-known-good snapshot and only increments the counter; on the poll where
the counter reaches the threshold the published snapshot becomes
all-unavailable and the cache is reset; one subsequent successful read
publishes the freshly read values and resets the counter to zero; and in the
concrete scenario `count = 16`, `fail_threshold = 5`, four consecutive soft
failures after a successful read publish four frozen copies of the prior
snapshot, and the following successful read publishes the fresh values. -/
theorem C1_soft_failure_run (c : MConfig) (s : MState) (h : s.hasInst = true) :
    (((s.failCount + 1 : ℕ) : ℤ) < c.failThreshold →
      step c s (.read .soft) = ({ s with failCount := s.failCount + 1 }, [s.lastGood])) ∧
    (((s.failCount + 1 : ℕ) : ℤ) = c.failThreshold →
      step c s (.read .soft) =
        ({ s with failCount := s.failCount + 1, lastGood := offlineSnap c.count },
          [offlineSnap c.count])) ∧
    (∀ regs, step c s (.read (.ok regs)) =
      ({ s with failCount := 0, lastGood := applyRegs s.lastGood regs },
        [applyRegs s.lastGood regs])) ∧
    (run (mkMConfig 16 5 2 15) (initMState (mkMConfig 16 5 2 15))
        [.connOk (.ok (List.range 16)), .read .soft, .read .soft, .read .soft, .read .soft,
          .read (.ok ((List.range 16).map (fun v => v + 100)))]).2 =
      [applyRegs (offlineSnap 16) (List.range 16),
        applyRegs (offlineSnap 16) (List.range 16),
        applyRegs (offlineSnap 16) (List.range 16),
        applyRegs (offlineSnap 16) (List.range 16),
        applyRegs (offlineSnap 16) (List.range 16),
        applyRegs (applyRegs (offlineSnap 16) (List.range 16))
          ((List.range 16).map (fun v => v + 100))] := by
  refine ⟨?_, ?_, ?_, ?_⟩
  · intro hlt
    rw [step_read_eq c s .soft h, doRead_soft_eq, if_neg (not_le.2 hlt)]
  · intro heq
    rw [step_read_eq c s .soft h, doRead_soft_eq, if_pos (le_of_eq heq.symm)]
  · intro regs
    rw [step_read_eq c s (.ok regs) h]
    rfl
  · decide

/-- Witness for C1: a single soft failure below the threshold republishes the
frozen snapshot and increments the counter. -/
theorem C1_soft_failure_run_witness :
    step (mkMConfig 16 5 2 15) ⟨true, offlineSnap 16, 0, 2⟩ (.read .soft) =
      (⟨true, offlineSnap 16, 1, 2⟩, [offlineSnap 16]) :=
  (C1_soft_failure_run (mkMConfig 16 5 2 15) ⟨true, offlineSnap 16, 0, 2⟩ rfl).1 (by decide)

/-- Claim C7: a single structural (hard) serial failure during a bulk read,
regardless of the current consecutive-failure counter value, releases the
endpoint handle, publishes an all-unavailable snapshot on that same cycle, and
returns the poller to the Disconnected state (with the backoff doubled,
capped, for the reconnect loop the next iteration enters). -/
theorem C7_hard_failure_disconnects (c : MConfig) (s : MState) (h : s.hasInst = true) :
    step c s (.read .hard) =
      ({ s with
          hasInst := false,
          lastGood := offlineSnap c.count,
          currentBackoff := min (s.currentBackoff * 2) c.backoffMax },
        [offlineSnap c.count]) ∧
    connState (step c s (.read .hard)).1 = .Disconnected := by
  have heq : step c s (.read .hard) =
      ({ s with
          hasInst := false,
          lastGood := offlineSnap c.count,
          currentBackoff := min (s.currentBackoff * 2) c.backoffMax },
        [offlineSnap c.count]) := by
    rw [step_read_eq c s .hard h]
    rfl
  exact ⟨heq, by rw [heq]; simp [connState]⟩

/-- Witness for C7: a hard failure at counter value 3 disconnects. -/
theorem C7_hard_failure_disconnects_witness :
    connState (step (mkMConfig 3 5 2 15) ⟨true, offlineSnap 3, 3, 2⟩ (.read .hard)).1 =
      .Disconnected :=
  (C7_hard_failure_disconnects (mkMConfig 3 5 2 15) ⟨true, offlineSnap 3, 3, 2⟩ rfl).2

/-- Claim C8: across any sequence of failed reconnect attempts with no
intervening successful connect, the backoff delay is non-decreasing (each
failed attempt doubles it, capped) and never exceeds the configured maximum;
a successful reconnect (here followed by its same-iteration successful read)
resets it to the configured start value. -/
theorem C8_backoff_monotone_bounded (c : MConfig) (s : MState)
    (hpos : 0 < c.backoffStart) (hsm : c.backoffStart ≤ c.backoffMax)
    (hlo : c.backoffStart ≤ s.currentBackoff) (hhi : s.currentBackoff ≤ c.backoffMax)
    (hdisc : s.hasInst = false) :
    (∀ k : ℕ,
      ((fun st => (step c st .connFail).1)^[k] s).currentBackoff ≤
        ((fun st => (step c st .connFail).1)^[k + 1] s).currentBackoff ∧
      ((fun st => (step c st .connFail).1)^[k] s).currentBackoff ≤ c.backoffMax) ∧
    (step c s .connFail).1.currentBackoff = min (s.currentBackoff * 2) c.backoffMax ∧
    (∀ regs, (step c s (.connOk (.ok regs))).1.currentBackoff = c.backoffStart) := by
  have hstepinv : ∀ st : MState, st.hasInst = false →
      c.backoffStart ≤ st.currentBackoff → st.currentBackoff ≤ c.backoffMax →
      (step c st .connFail).1.hasInst = false ∧
        st.currentBackoff ≤ (step c st .connFail).1.currentBackoff ∧
        c.backoffStart ≤ (step c st .connFail).1.currentBackoff ∧
        (step c st .connFail).1.currentBackoff ≤ c.backoffMax := by
    intro st hst hlo' hhi'
    rw [step_connFail_eq c st hst]
    refine ⟨hst, le_min (by linarith) hhi', le_min (by linarith) hsm, min_le_right _ _⟩
  have hiter : ∀ k : ℕ,
      ((fun st => (step c st .connFail).1)^[k] s).hasInst = false ∧
        c.backoffStart ≤ ((fun st => (step c st .connFail).1)^[k] s).currentBackoff ∧
        ((fun st => (step c st .connFail).1)^[k] s).currentBackoff ≤ c.backoffMax := by
    intro k
    induction k with
    | zero => exact ⟨hdisc, hlo, hhi⟩
    | succ n ih =>
        rw [Function.iterate_succ_apply']
        have h1 := hstepinv _ ih.1 ih.2.1 ih.2.2
        exact ⟨h1.1, h1.2.2.1, h1.2.2.2⟩
  refine ⟨?_, ?_, ?_⟩
  · intro k
    have hk := hiter k
    have h1 := hstepinv _ hk.1 hk.2.1 hk.2.2
    rw [Function.iterate_succ_apply']
    exact ⟨h1.2.1, hk.2.2⟩
  · rw [step_connFail_eq c s hdisc]
  · intro regs
    simp [step, hdisc, doRead]

/-- Witness for C8: doubling capped at the max from the initial state. -/
theorem C8_backoff_monotone_bounded_witness :
    (step (mkMConfig 16 5 2 15) (initMState (mkMConfig 16 5 2 15)) .connFail).1.currentBackoff =
      min ((initMState (mkMConfig 16 5 2 15)).currentBackoff * 2)
        (mkMConfig 16 5 2 15).backoffMax :=
  (C8_backoff_monotone_bounded (mkMConfig 16 5 2 15) (initMState (mkMConfig 16 5 2 15))
    (by norm_num [mkMConfig]) (by norm_num [mkMConfig]) le_rfl
    (by norm_num [mkMConfig, initMState]) rfl).2.1

/-- Claim C10: for every input, the constructor clamps its resilience
parameters: the stored fail threshold equals `max 1 fail_threshold`, the
stored backoff start is at least `0.5`, the stored backoff maximum is at least
the stored start, the freshly initialised current backoff lies between start
and max, and the stored threshold is at least 1, so threshold-based offline
detection stays enabled for zero or negative configuration inputs. -/
theorem C10_constructor_clamps (count : ℕ) (ft : ℤ) (bs bm : ℚ) :
    (mkMConfig count ft bs bm).failThreshold = max 1 ft ∧
    (1 / 2 : ℚ) ≤ (mkMConfig count ft bs bm).backoffStart ∧
    (mkMConfig count ft bs bm).backoffStart ≤ (mkMConfig count ft bs bm).backoffMax ∧
    (mkMConfig count ft bs bm).backoffStart ≤
      (initMState (mkMConfig count ft bs bm)).currentBackoff ∧
    (initMState (mkMConfig count ft bs bm)).currentBackoff ≤
      (mkMConfig count ft bs bm).backoffMax ∧
    1 ≤ (mkMConfig count ft bs bm).failThreshold :=
  ⟨rfl, le_max_left _ _, le_max_left _ _, le_refl _, le_max_left _ _, le_max_left _ _⟩

/-!
Part 2: the StreamIngestor (`src/streaming/rtsp_handler.py`, class
`RTSPStreamThread`).  The `run` loop (lines 27-70) is embedded as a step
function over the loop state (`running` / whether the `break` at line 46 was
taken, and `start_time`); wall-clock time is an explicit event parameter.
The two `time.time()` calls of a failed-open iteration (lines 40 and 42) are
microseconds apart and are modelled as a single instant.
-/

/-- Observable actions of one loop iteration: an open attempt
(`cv2.VideoCapture`, line 35), a delivered frame (line 58), the
`reconnecting` signal (lines 48 and 67), the `stream_failed` signal
(line 45, tagged with the time at which it fires), and `cap.release()`
(line 63). -/
inductive RAct where
  | openAttempt (t : ℚ)
  | emitFrame
  | emitReconnecting
  | emitFailed (t : ℚ)
  | release
  deriving DecidableEq, Repr

/-- Loop state: `alive` is false once the `break` at line 46 has run;
`startTime` is the Python `start_time` (None or a clock value). -/
structure RState where
  alive : Bool
  startTime : Option ℚ
  deriving DecidableEq, Repr

/-- State at the top of `run` (line 32): `start_time = None`. -/
def initRState : RState := { alive := true, startTime := none }

/-- Environment input for one outer-loop iteration with `running` true:
either the open fails at clock value `t` (lines 37-50), or the open succeeds,
`n` frames are read, and then a read fails mid-stream with the reconnect
block running at clock value `t` (lines 52-70). -/
inductive REv where
  | openFail (t : ℚ)
  | openOkReadFail (n : ℕ) (t : ℚ)
  deriving DecidableEq, Repr

/-- One outer-loop iteration.  Failed open: set `start_time` if it was None
(line 40), then if the elapsed time since `start_time` exceeds 60 seconds emit
`stream_failed` and break (lines 43-46), else emit `reconnecting` and retry
(lines 48-50).  Successful open followed by a mid-stream read failure: clear
`start_time` (line 53), emit the frames read, break the inner loop, release
the handle (line 63), emit `reconnecting` and set `start_time` to the current
time (lines 66-69).  Once the loop has been broken nothing further happens. -/
def rstep (s : RState) : REv → RState × List RAct
  | .openFail t =>
      if s.alive = true then
        let st := s.startTime.getD t
        if t - st > 60 then
          ({ alive := false, startTime := some st }, [.openAttempt t, .emitFailed t])
        else
          ({ alive := true, startTime := some st }, [.openAttempt t, .emitReconnecting])
      else (s, [])
  | .openOkReadFail n t =>
      if s.alive = true then
        ({ alive := true, startTime := some t },
          .openAttempt t :: (List.replicate n .emitFrame ++ [.release, .emitReconnecting]))
      else (s, [])

/-- Run the ingestor loop over a list of environment events, collecting the
actions in order. -/
def rrun (s : RState) : List REv → RState × List RAct
  | [] => (s, [])
  | e :: es =>
      let p := rstep s e
      let q := rrun p.1 es
      (q.1, p.2 ++ q.2)

/-- Once the loop has been broken, no event produces any action or state
change. -/
theorem rrun_dead (es : List REv) : ∀ s : RState, s.alive = false → rrun s es = (s, []) := by
  induction es with
  | nil => intro s _; rfl
  | cons e es ih =>
      intro s hs
      have hstep : rstep s e = (s, []) := by
        cases e <;> simp [rstep, hs]
      simp [rrun, hstep, ih s hs]

/-- Splitting a run at a list append. -/
theorem rrun_append (l1 l2 : List REv) :
    ∀ s : RState, rrun s (l1 ++ l2) =
      ((rrun (rrun s l1).1 l2).1, (rrun s l1).2 ++ (rrun (rrun s l1).1 l2).2) := by
  induction l1 with
  | nil => intro s; simp [rrun]
  | cons e es ih =>
      intro s
      simp [rrun, ih (rstep s e).1, List.append_assoc]

/-- From a state whose budget window started at `t0`, a trace of failed opens
one of which exceeds the budget ends with a single `stream_failed` and kills
the loop. -/
theorem rrun_openFail_gives_up (t0 : ℚ) (ts : List ℚ) (hex : ∃ t ∈ ts, 60 < t - t0) :
    ∃ pre t,
      rrun ⟨true, some t0⟩ (ts.map .openFail) =
        (⟨false, some t0⟩, pre ++ [.emitFailed t]) ∧
      (∀ u, RAct.emitFailed u ∉ pre) ∧ 60 < t - t0 := by
  induction ts with
  | nil => simp at hex
  | cons t rest ih =>
      by_cases hc : 60 < t - t0
      · refine ⟨[.openAttempt t], t, ?_, ?_, hc⟩
        · have hstep : rstep ⟨true, some t0⟩ (.openFail t) =
              (⟨false, some t0⟩, [.openAttempt t, .emitFailed t]) := by
            simp [rstep, hc]
          simp [rrun, hstep, rrun_dead (rest.map .openFail) ⟨false, some t0⟩ rfl]
        · intro u hu
          simp at hu
      · have hex' : ∃ u ∈ rest, 60 < u - t0 := by
          rcases hex with ⟨u, hu, hu60⟩
          rcases List.mem_cons.1 hu with rfl | hu
          · exact absurd hu60 hc
          · exact ⟨u, hu, hu60⟩
        rcases ih hex' with ⟨pre, tf, hrun, hpre, htf⟩
        refine ⟨.openAttempt t :: .emitReconnecting :: pre, tf, ?_, ?_, htf⟩
        · have hstep : rstep ⟨true, some t0⟩ (.openFail t) =
              (⟨true, some t0⟩, [.openAttempt t, .emitReconnecting]) := by
            simp [rstep, hc]
          simp [rrun, hstep, hrun]
        · intro u hu
          rcases List.mem_cons.1 hu with hu | hu
          · exact RAct.noConfusion hu
          rcases List.mem_cons.1 hu with hu | hu
          · exact RAct.noConfusion hu
          · exact hpre u hu

/-- Claim C3: if the ingestor has zero successful opens since its budget
window began, it emits the permanently-failed signal exactly once (it is the
last action, and occurs nowhere earlier), only at a clock value more than 60
seconds past the first failed open, and afterwards the worker is no longer
alive and processes no further events, so no further reconnect attempts
occur. -/
theorem C3_permanent_failure_once (t0 : ℚ) (ts : List ℚ)
    (hex : ∃ t ∈ ts, 60 < t - t0) :
    ∃ pre t,
      (rrun initRState ((t0 :: ts).map .openFail)).2 = pre ++ [.emitFailed t] ∧
      (∀ u, RAct.emitFailed u ∉ pre) ∧ 60 < t - t0 ∧
      (rrun initRState ((t0 :: ts).map .openFail)).1.alive = false ∧
      ∀ extra : List REv,
        (rrun initRState (((t0 :: ts).map .openFail) ++ extra)).2 = pre ++ [.emitFailed t] := by
  have hfirst : rstep initRState (.openFail t0) =
      (⟨true, some t0⟩, [.openAttempt t0, .emitReconnecting]) := by
    simp [rstep, initRState]
  rcases rrun_openFail_gives_up t0 ts hex with ⟨pre, t, hrun, hpre, ht⟩
  refine ⟨.openAttempt t0 :: .emitReconnecting :: pre, t, ?_, ?_, ht, ?_, ?_⟩
  · simp [rrun, hfirst, hrun]
  · intro u hu
    rcases List.mem_cons.1 hu with hu | hu
    · exact RAct.noConfusion hu
    rcases List.mem_cons.1 hu with hu | hu
    · exact RAct.noConfusion hu
    · exact hpre u hu
  · simp [rrun, hfirst, hrun]
  · intro extra
    have hstate : (rrun initRState ((t0 :: ts).map .openFail)).1 = ⟨false, some t0⟩ := by
      simp [rrun, hfirst, hrun]
    rw [rrun_append]
    rw [hstate, rrun_dead extra ⟨false, some t0⟩ rfl]
    simp [rrun, hfirst, hrun]

/-- Witness for C3: failed opens at times 0, 10, 70 give up at time 70. -/
theorem C3_permanent_failure_once_witness :
    ∃ pre t,
      (rrun initRState (([(0 : ℚ), 10, 70]).map .openFail)).2 = pre ++ [.emitFailed t] ∧
      (∀ u, RAct.emitFailed u ∉ pre) ∧ 60 < t - 0 ∧
      (rrun initRState (([(0 : ℚ), 10, 70]).map .openFail)).1.alive = false ∧
      ∀ extra : List REv,
        (rrun initRState (([(0 : ℚ), 10, 70]).map .openFail ++ extra)).2 =
          pre ++ [.emitFailed t] :=
  C3_permanent_failure_once 0 [10, 70] ⟨70, by simp, by norm_num⟩

/-- Counterexample to claim C6 as stated: after a mid-stream read failure at
time 0 the code sets `start_time` immediately (rtsp_handler.py lines 68-69),
before any open attempt, so the timer does not wait for the next failed open;
consequently a single failed open at time 61 — the first and only failed open
attempt, an instant into what the claim regards as a fresh budget window —
already emits the permanently-failed signal, because the 61 seconds spent
between the read failure and that open attempt were counted against the
budget. -/
theorem C6_counterexample :
    (rstep initRState (.openOkReadFail 0 0)).1.startTime = some 0 ∧
    (rrun initRState [.openOkReadFail 0 0, .openFail 61]).2 =
      [.openAttempt 0, .release, .emitReconnecting, .openAttempt 61, .emitFailed 61] := by
  constructor
  · rfl
  · norm_num [rrun, rstep, initRState]

/-- Claim C6 as amended: after a mid-stream read failure, the capture handle
is released before the loop resumes (the `release` action precedes the
`reconnecting` emission that closes the iteration), and the 60-second
reconnection-budget timer restarts at the read failure itself, so a
subsequent failed open at time `t'` measures its elapsed budget from the
read-failure time `t`. -/
theorem C6_amended_release_and_timer (s : RState) (n : ℕ) (t : ℚ) (h : s.alive = true) :
    rstep s (.openOkReadFail n t) =
      (⟨true, some t⟩,
        .openAttempt t :: (List.replicate n .emitFrame ++ [.release, .emitReconnecting])) ∧
    ∀ t' : ℚ, (rstep ⟨true, some t⟩ (.openFail t')).2 =
      if 60 < t' - t then [.openAttempt t', .emitFailed t']
      else [.openAttempt t', .emitReconnecting] := by
  constructor
  · simp [rstep, h]
  · intro t'
    by_cases hc : 60 < t' - t <;> simp [rstep, hc]

/-- Witness for the amended C6: a read failure at time 5 after two frames. -/
theorem C6_amended_release_and_timer_witness :
    rstep initRState (.openOkReadFail 2 5) =
      (⟨true, some 5⟩,
        .openAttempt 5 :: (List.replicate 2 .emitFrame ++ [.release, .emitReconnecting])) :=
  (C6_amended_release_and_timer initRState 2 5 rfl).1

/-!
Part 3: the RecordingPipeline (`src/core/recorder.py`, class
`CameraRecorder`).  Wall-clock instants are embedded as seconds since an
epoch; `datetime.date()` comparison becomes comparison of the day number,
`strftime("%H_%M")` becomes the minute of the day, and
`replace(hour=23, minute=59)` keeps the second component, as in Python.
Only the rotation / file-naming logic is embedded; frame overlay and the
underlying `cv2.VideoWriter` do not influence it.
-/

/-- Calendar day of an instant (`datetime.date()`). -/
def dayOf (t : ℕ) : ℕ := t / 86400

/-- The expression `start.replace(hour=23, minute=59)` (recorder.py lines 47,
91, 102): 23:59 of the same day, keeping the seconds. -/
def capEOD (t : ℕ) : ℕ := dayOf t * 86400 + 23 * 3600 + 59 * 60 + t % 60

/-- The `strftime("%H_%M")` label of an instant, as a minute of the day. -/
def hmLabel (t : ℕ) : ℕ := t % 86400 / 60

/-- The planned end computed for a segment starting at `start` (lines 88-91
and 99-102, and again in `_open_new_writer`, lines 45-47): one rotation
period later, truncated to 23:59 of the start day if that would cross
midnight. -/
def plannedEnd (rotMin start : ℕ) : ℕ :=
  if dayOf (start + rotMin * 60) ≠ dayOf start then capEOD start else start + rotMin * 60

/-- Recorder state: whether a `cv2.VideoWriter` is open, and
`current_start` / `current_end` (meaningful once a writer has been opened). -/
structure RecState where
  videoWriter : Bool
  currentStart : ℕ
  currentEnd : ℕ
  deriving DecidableEq, Repr

/-- State after `__init__` (lines 29-31): no writer; `current_start` and
`current_end` are Python `None` and are modelled by an arbitrary value, as no
embedded path reads them before a writer is opened. -/
def initRecState : RecState := { videoWriter := false, currentStart := 0, currentEnd := 0 }

/-- Observable recording events: a new file opened in a date folder with a
planned start/end, and a writer released at rotation (the file keeps the
planned labels it was opened with). -/
inductive RecEv where
  | openedWriter (folderDay startT endT : ℕ)
  | closedWriter (startT endT : ℕ)
  deriving DecidableEq, Repr

/-- `_open_new_writer(start, end)` (lines 41-64): the date folder is today's
(line 36, `datetime.now()`), the end is capped again at 23:59 of the start
day if it crosses midnight (lines 46-47), the file is named after the
start/end labels and `current_start`/`current_end` are set. -/
def openNewWriter (today start e : ℕ) : RecState × RecEv :=
  let e2 := if dayOf e ≠ dayOf start then capEOD start else e
  ({ videoWriter := true, currentStart := start, currentEnd := e2 },
    RecEv.openedWriter today start e2)

/-- The rotation logic of `write_frame` (lines 84-103) at instant `now`:
if no writer is open, open one for `[now, plannedEnd now]`; then, if `now`
has reached or passed `current_end`, release the writer and open the next one
for `[current_end, plannedEnd current_end]`.  Overlay drawing and the actual
frame write (lines 105-146) do not affect this state. -/
def writeFrame (rotMin : ℕ) (s : RecState) (now : ℕ) : RecState × List RecEv :=
  let p :=
    if s.videoWriter = false then
      let q := openNewWriter (dayOf now) now (plannedEnd rotMin now)
      (q.1, [q.2])
    else (s, ([] : List RecEv))
  if p.1.currentEnd ≤ now then
    let q := openNewWriter (dayOf now) p.1.currentEnd (plannedEnd rotMin p.1.currentEnd)
    (q.1, p.2 ++ [RecEv.closedWriter p.1.currentStart p.1.currentEnd, q.2])
  else p

/-- The 23:59 cap stays on the same calendar day, so a planned end never
crosses midnight and `_open_new_writer`'s second cap is a no-op. -/
theorem dayOf_plannedEnd (rotMin st : ℕ) : dayOf (plannedEnd rotMin st) = dayOf st := by
  unfold plannedEnd
  split
  · unfold capEOD dayOf
    omega
  · next h =>
      unfold dayOf at h ⊢
      omega

/-- Opening a writer at an already-capped planned end sets exactly that
start/end. -/
theorem openNewWriter_planned (today rotMin st : ℕ) :
    openNewWriter today st (plannedEnd rotMin st) =
      ({ videoWriter := true, currentStart := st, currentEnd := plannedEnd rotMin st },
        RecEv.openedWriter today st (plannedEnd rotMin st)) := by
  unfold openNewWriter
  rw [if_neg]
  simp [dayOf_plannedEnd]

/-- Claim C5: whenever a frame arrives at or after the current segment's
planned end, that segment is closed with its planned start/end labels (its
file keeps the planned-end name) and the next segment's planned start equals
exactly the prior segment's planned end — not the triggering frame's arrival
time — with its own planned end derived from that start. -/
theorem C5_rotation_contiguous (rotMin : ℕ) (s : RecState) (now : ℕ)
    (hw : s.videoWriter = true) (hrot : s.currentEnd ≤ now) :
    (writeFrame rotMin s now).1.currentStart = s.currentEnd ∧
    (writeFrame rotMin s now).1.currentEnd = plannedEnd rotMin s.currentEnd ∧
    (writeFrame rotMin s now).1.videoWriter = true ∧
    (writeFrame rotMin s now).2 =
      [RecEv.closedWriter s.currentStart s.currentEnd,
        RecEv.openedWriter (dayOf now) s.currentEnd (plannedEnd rotMin s.currentEnd)] := by
  have h1 : ¬(s.videoWriter = false) := by simp [hw]
  have heq : writeFrame rotMin s now =
      ((openNewWriter (dayOf now) s.currentEnd (plannedEnd rotMin s.currentEnd)).1,
        [RecEv.closedWriter s.currentStart s.currentEnd,
          (openNewWriter (dayOf now) s.currentEnd (plannedEnd rotMin s.currentEnd)).2]) := by
    simp only [writeFrame, if_neg h1, if_pos hrot]
    simp
  rw [heq, openNewWriter_planned (dayOf now) rotMin s.currentEnd]
  exact ⟨rfl, rfl, rfl, rfl⟩

/-- Witness for C5: a segment `[10:00, 11:00)` rotating on a frame at
11:00:30 opens the next segment at exactly 11:00:00. -/
theorem C5_rotation_contiguous_witness :
    (writeFrame 60 ⟨true, 36000, 39600⟩ 39630).1.currentStart = 39600 ∧
    (writeFrame 60 ⟨true, 36000, 39600⟩ 39630).1.currentEnd = plannedEnd 60 39600 ∧
    (writeFrame 60 ⟨true, 36000, 39600⟩ 39630).1.videoWriter = true ∧
    (writeFrame 60 ⟨true, 36000, 39600⟩ 39630).2 =
      [RecEv.closedWriter 36000 39600,
        RecEv.openedWriter (dayOf 39630) 39600 (plannedEnd 60 39600)] :=
  C5_rotation_contiguous 60 ⟨true, 36000, 39600⟩ 39630 rfl (by norm_num)

/-- Behaviour of the code at claim C4's scenario (`rotation_minutes = 60`,
first frame at 23:30:00 of day 0, i.e. 84600 s; next frame at 00:05:00 of
day 1, i.e. 86700 s).  The first half of the claim holds: the first segment
is planned for 23:30-23:59 of day 0 (84600-86340 s, a 29-minute segment).
The second half fails: the day-1 frame does not start a segment at its own
arrival time 86700; the code starts it at the prior capped end 86340
(23:59 of day 0) and caps its end to 86340 as well, a degenerate zero-length
segment that every subsequent frame closes and reopens. -/
theorem C4_code_behavior :
    writeFrame 60 initRecState 84600 =
      (⟨true, 84600, 86340⟩, [RecEv.openedWriter 0 84600 86340]) ∧
    86340 - 84600 = 29 * 60 ∧
    writeFrame 60 ⟨true, 84600, 86340⟩ 86700 =
      (⟨true, 86340, 86340⟩,
        [RecEv.closedWriter 84600 86340, RecEv.openedWriter 1 86340 86340]) ∧
    (writeFrame 60 ⟨true, 84600, 86340⟩ 86700).1.currentStart ≠ 86700 := by
  refine ⟨by decide, by norm_num, by decide, by decide⟩

/-- A recording file, identified by its date folder (day number) and its
start/end `HH_MM` labels (minutes of the day). -/
abbrev FileId := ℕ × ℕ × ℕ

/-- The files present in the recordings tree. -/
abbrev FileSet := List FileId

/-- Log records produced by `CameraRecorder.stop`. -/
inductive StopLog where
  | finalized (folderDay startHM endHM : ℕ)
  | warnMissing (folderDay startHM endHM : ℕ)
  | stopped
  deriving DecidableEq, Repr

/-- `CameraRecorder.stop` (recorder.py lines 148-174): if a writer is open,
release it, look in today's date folder for the file named with the planned
start/end labels and rename it so the end label is the actual stop time; if
that file is absent, log a warning instead.  The `try`/`except` around the
rename (lines 165-172) catches every exception, so `stop` always returns
normally; it is embedded as a total function. -/
def stopRec (s : RecState) (now : ℕ) (fs : FileSet) : RecState × FileSet × List StopLog :=
  if s.videoWriter = true then
    let old : FileId := (dayOf now, hmLabel s.currentStart, hmLabel s.currentEnd)
    let nw : FileId := (dayOf now, hmLabel s.currentStart, hmLabel now)
    if old ∈ fs then
      ({ s with videoWriter := false }, nw :: fs.erase old,
        [StopLog.finalized (dayOf now) (hmLabel s.currentStart) (hmLabel now),
          StopLog.stopped])
    else
      ({ s with videoWriter := false }, fs,
        [StopLog.warnMissing (dayOf now) (hmLabel s.currentStart) (hmLabel s.currentEnd),
          StopLog.stopped])
  else (s, fs, [])

/-- Claim C9: calling `stop` while a writer is open releases the writer and,
if the planned-end-named file exists, renames it to the name whose end label
is the actual stop time; if the planned-end-named file does not exist, a
warning is logged, the file set is unchanged, and `stop` still returns
normally (the embedding is a total function because the source catches every
rename exception). -/
theorem C9_stop_renames_or_warns (s : RecState) (now : ℕ) (fs : FileSet)
    (hw : s.videoWriter = true) :
    (stopRec s now fs).1.videoWriter = false ∧
    ((dayOf now, hmLabel s.currentStart, hmLabel s.currentEnd) ∈ fs →
      (stopRec s now fs).2.1 =
        (dayOf now, hmLabel s.currentStart, hmLabel now) ::
          fs.erase (dayOf now, hmLabel s.currentStart, hmLabel s.currentEnd) ∧
      StopLog.finalized (dayOf now) (hmLabel s.currentStart) (hmLabel now) ∈
        (stopRec s now fs).2.2) ∧
    ((dayOf now, hmLabel s.currentStart, hmLabel s.currentEnd) ∉ fs →
      (stopRec s now fs).2.1 = fs ∧
      StopLog.warnMissing (dayOf now) (hmLabel s.currentStart) (hmLabel s.currentEnd) ∈
        (stopRec s now fs).2.2) := by
  by_cases hmem : (dayOf now, hmLabel s.currentStart, hmLabel s.currentEnd) ∈ fs
  · refine ⟨?_, fun _ => ⟨?_, ?_⟩, fun hm => absurd hmem hm⟩ <;>
      simp [stopRec, hw, hmem]
  · refine ⟨?_, fun hm => absurd hm hmem, fun _ => ⟨?_, ?_⟩⟩ <;>
      simp [stopRec, hw, hmem]

/-- Witness for C9: stopping at 23:36:40 a segment planned for 23:30-23:59
whose planned file exists renames it to the 23:36 end label. -/
theorem C9_stop_renames_or_warns_witness :
    (stopRec ⟨true, 84600, 86340⟩ 85000 [(0, 1410, 1439)]).2.1 =
      (0, 1410, 1416) :: [(0, 1410, 1439)].erase (0, 1410, 1439) ∧
    StopLog.finalized 0 1410 1416 ∈
      (stopRec ⟨true, 84600, 86340⟩ 85000 [(0, 1410, 1439)]).2.2 :=
  (C9_stop_renames_or_warns ⟨true, 84600, 86340⟩ 85000 [(0, 1410, 1439)] rfl).2.1
    (by decide)

end HTCCTV
